import Mathlib

/-!
Verification of the interchange-projection core (`core_write.cpp`) of a
multi-currency UTXO chain.  UniValue objects are modelled as key/value lists
(`push_back(Pair(k, v))` appends); machine integers are modelled as `Int`/`Nat`
with explicit two's-complement wrapping where overflow matters; external
collaborators (address codecs, record decoders, pricing) are collected in an
`Env` record of abstract functions.
-/

/-- Shallow model of `UniValue`: numbers created through `ValueFromAmount`
carry their canonical string body (`UniValue(UniValue::VNUM, str)`). -/
inductive UniV where
  | vnum : String → UniV
  | vstr : String → UniV
  | vint : Int → UniV
  | vbool : Bool → UniV
  | vobj : List (String × UniV) → UniV
  | varr : List UniV → UniV

/-- Keys of a modelled UniValue object. -/
def keys (l : List (String × UniV)) : List String := l.map Prod.fst

/-- Whether a modelled UniValue object carries key `k`. -/
def hasKey (l : List (String × UniV)) (k : String) : Bool :=
  l.any (fun p => p.1 == k)

/-- First value stored under key `k` (`UniValue` object member lookup). -/
def lookupKey (l : List (String × UniV)) (k : String) : Option UniV :=
  (l.find? (fun p => p.1 == k)).map Prod.snd

/-- `COIN = 100000000`: one currency unit in 1e-8 fixed point. -/
def COIN : Int := 100000000

/-- Two's-complement wrap to a signed 64-bit value, used where the source
stores an expression into an `int64_t`. -/
def wrap64 (x : Int) : Int := (x + 2 ^ 63) % 2 ^ 64 - 2 ^ 63

/-- `strprintf("%08d", v)`: decimal rendering zero-padded to a total width of
eight characters, the sign (when present) counting toward the width and
printed before the padding. -/
def printf08d (v : Int) : String :=
  let digits := toString v.natAbs
  let sgn := if v < 0 then "-" else ""
  sgn ++ String.mk (List.replicate (8 - (sgn.length + digits.length)) '0') ++ digits

/-- The string body built by `ValueFromAmount`:
`strprintf("%s%d.%08d", sign ? "-" : "", quotient, remainder)` where
`n_abs = sign ? -amount : amount` is an `int64_t` (hence wraps at `INT64_MIN`)
and `/`, `%` are C++ truncated division and remainder. -/
def ValueFromAmountStr (amount : Int) : String :=
  let n_abs : Int := wrap64 (if amount < 0 then -amount else amount)
  let quotient : Int := Int.tdiv n_abs COIN
  let remainder : Int := Int.tmod n_abs COIN
  (if amount < 0 then "-" else "") ++ toString quotient ++ "." ++ printf08d remainder

/-- `ValueFromAmount`: canonical amount projection (`UniValue(VNUM, body)`). -/
def ValueFromAmount (amount : Int) : UniV := .vnum (ValueFromAmountStr amount)

/-- `CCurrencyValueMap`: sparse map from 160-bit currency identifier to signed
amount.  `std::map` is modelled as an association list kept strictly sorted by
key (the map's comparator is modelled by `<` on the numeric identifier). -/
structure CCurrencyValueMap where
  valueMap : List (Nat × Int)
deriving Inhabited

/-- `valueMap[k] = v` on the modelled `std::map`: insert keeping the strict
key order, replacing an existing binding. -/
def mapInsert (k : Nat) (v : Int) : List (Nat × Int) → List (Nat × Int)
  | [] => [(k, v)]
  | (k', v') :: t =>
    if k < k' then (k, v) :: (k', v') :: t
    else if k = k' then (k, v) :: t
    else (k', v') :: mapInsert k v t

/-- `CNodeData`: a notarization node entry. -/
structure CNodeData where
  networkAddress : String
  nodeIdentity : Nat
deriving Inhabited

/-- `CCurrencyState`: reserve-pool snapshot.  160-bit identifiers are `Nat`,
amounts are signed 64-bit values modelled as `Int`. -/
structure CCurrencyState where
  flags : Int
  currencies : List Nat
  weights : List Int
  reserves : List Int
  initialSupply : Int
  emitted : Int
  supply : Int
deriving Inhabited

/-- `CCoinbaseCurrencyState`: extends `CCurrencyState` with one block's flow. -/
structure CCoinbaseCurrencyState extends CCurrencyState where
  reserveIn : List Int
  nativeIn : List Int
  reserveOut : List Int
  conversionPrice : List Int
  fees : List Int
  conversionFees : List Int
  nativeFees : Int
  nativeConversionFees : Int
deriving Inhabited

/-- `CPBaaSNotarization`: checkpoint record.  256-bit fields are `Nat`. -/
structure CPBaaSNotarization where
  nVersion : Int
  systemID : Nat
  notaryDest : Nat
  notarizationHeight : Int
  mmrRoot : Nat
  notarizationPreHash : Nat
  compactPower : Nat
  currencyState : CCoinbaseCurrencyState
  prevNotarization : Nat
  prevHeight : Int
  crossNotarization : Nat
  crossHeight : Int
  nodes : List CNodeData
deriving Inhabited

/-- `CCurrencyDefinition`: static parameters of a currency. -/
structure CCurrencyDefinition where
  name : String
  nVersion : Int
  options : Int
  parent : Nat
  systemID : Nat
  notarizationProtocol : Int
  proofProtocol : Int
  idRegistrationAmount : Int
  idReferralLevels : Int
  notaries : List Nat
  minNotariesConfirm : Int
  billingPeriod : Int
  notarizationReward : Int
  startBlock : Int
  endBlock : Int
  currencies : List Nat
  weights : List Int
  conversions : List Int
  minPreconvert : List Int
  maxPreconvert : List Int
  preAllocationRatio : Int
  preAllocation : List (Nat × Int)
  contributions : List Int
  preconverted : List Int
  rewards : List Int
  rewardsDecay : List Int
  halving : List Int
  eraEnd : List Int
deriving Inhabited

/-- `CTokenOutput`: `(version, currencyID, value)`. -/
structure CTokenOutput where
  nVersion : Int
  currencyID : Nat
  nValue : Int
deriving Inhabited

/-- Modelled from the spec: the `CReserveTransfer` flag constants live in an
external header (`pbaas/reserves.h`); the projection only tests individual
bits, so the bit-flag set is modelled as one Boolean per named flag. -/
structure ReserveTransferFlags where
  preallocate : Bool
  mintCurrency : Bool
  convert : Bool
  preconvert : Bool
  feeOutput : Bool
  sendBack : Bool
deriving Inhabited

/-- Modelled from the spec: `CTransferDestination::type` tags live in an
external header; the known tags (key-hash, script-hash, identity,
quantum-safe key) are constructors, any other tag is `other`. -/
inductive DestinationType where
  | pkh
  | sh
  | id
  | quantum
  | other (tag : Nat)
deriving Inhabited

/-- `CTransferDestination`: a typed destination with raw destination bytes. -/
structure CTransferDestination where
  destType : DestinationType
  destination : List Nat
deriving Inhabited

/-- `CReserveTransfer` extends `CTokenOutput`. -/
structure CReserveTransfer extends CTokenOutput where
  flags : ReserveTransferFlags
  nFees : Int
  destCurrencyID : Nat
  destination : CTransferDestination
deriving Inhabited

/-- Modelled from the spec: `CReserveExchange` flag constants are external;
modelled as one Boolean per named flag. -/
structure ReserveExchangeFlags where
  toReserve : Bool
  limit : Bool
  fillOrKill : Bool
  sendOutput : Bool
deriving Inhabited

/-- `CReserveExchange` extends `CTokenOutput`. -/
structure CReserveExchange extends CTokenOutput where
  flags : ReserveExchangeFlags
  nLimit : Int
  nValidBefore : Int
deriving Inhabited

/-- `CCrossChainExport`. -/
structure CCrossChainExport where
  nVersion : Int
  systemID : Nat
  numInputs : Int
  totalAmounts : CCurrencyValueMap
  totalFees : CCurrencyValueMap
deriving Inhabited

/-- `CCrossChainImport`. -/
structure CCrossChainImport where
  nVersion : Int
  systemID : Nat
  importValue : CCurrencyValueMap
  totalReserveOutMap : CCurrencyValueMap
deriving Inhabited

/-- `CPrincipal`: signing-authority base of an identity. -/
structure CPrincipal where
  nVersion : Int
  flags : Int
  primaryAddresses : List Nat
  minSigs : Int
deriving Inhabited

/-- `CIdentity` extends `CPrincipal`. -/
structure CIdentity extends CPrincipal where
  parent : Nat
  name : String
  contentMap : List (Nat × Nat)
  revocationAuthority : Nat
  recoveryAuthority : Nat
  privateAddresses : List Nat
deriving Inhabited

/-- Evaluation codes of the typed-payload protocol, modelled (as the spec's
design notes direct) as a closed sum with an explicit variant for codes
outside the known table; the numeric tag values live in an external header. -/
inductive EvalCode where
  | currencyDefinition
  | serviceReward
  | earnedNotarization
  | acceptedNotarization
  | finalizeNotarization
  | currencyState
  | reserveTransfer
  | reserveOutput
  | reserveExchange
  | reserveDeposit
  | crosschainExport
  | crosschainImport
  | identityPrimary
  | identityRevoke
  | identityRecover
  | identityCommitment
  | identityReservation
  | stakeguard
  | identityExport
  | other (code : Nat)
deriving Inhabited

/-- External collaborators of the core (spec section 6): address and
identifier codecs, record decoders and their validity predicates, the
reserve-pricing function, signature-encoding validation and
pay-to-condition payload extraction.  Each is an opaque function supplied
by the surrounding system; the projections below are parametrised by it. -/
structure Env where
  decodeDestId : String → Nat
  encodeId : Nat → String
  encodeTxDest : Nat → String
  encodeKeyID : Nat → String
  encodeScriptID : Nat → String
  encodeQuantumID : Nat → String
  encodePaymentAddress : Nat → String
  amountFromValueNoErr : UniV → Except String Int
  hexStr : List Nat → String
  hex256 : Nat → String
  priceInReserve : CCurrencyState → Nat → Int
  currencyStateIsValid : Int → Bool
  currencyStateIsReserve : Int → Bool
  identityGetID : String → Nat → Nat
  checkSignatureEncoding : List Nat → Bool
  extractDestinations : List Nat → String × List Nat × Int
  isPayToCryptoCondition : List Nat → Option (Nat × EvalCode × List (List Nat))
  decodeCurrencyDefinition : List Nat → CCurrencyDefinition
  currencyDefinitionIsValid : CCurrencyDefinition → Bool
  serviceRewardIsValid : List Nat → Bool
  serviceRewardToUni : List Nat → UniV
  decodeNotarization : List Nat → CPBaaSNotarization
  notarizationIsValid : CPBaaSNotarization → Bool
  finalizationToUni : List Nat → UniV
  decodeCoinbaseCurrencyState : List Nat → CCoinbaseCurrencyState
  coinbaseCurrencyStateIsValid : CCoinbaseCurrencyState → Bool
  decodeReserveTransfer : List Nat → CReserveTransfer
  reserveTransferIsValid : CReserveTransfer → Bool
  decodeTokenOutput : List Nat → CTokenOutput
  tokenOutputIsValid : CTokenOutput → Bool
  decodeReserveExchange : List Nat → CReserveExchange
  reserveExchangeIsValid : CReserveExchange → Bool
  decodeCrossChainExport : List Nat → CCrossChainExport
  crossChainExportIsValid : CCrossChainExport → Bool
  decodeCrossChainImport : List Nat → CCrossChainImport
  crossChainImportIsValid : CCrossChainImport → Bool
  decodeIdentity : List Nat → CIdentity
  identityIsValid : CIdentity → Bool
  identityExportIsValid : List Nat → Bool
  identityExportToUni : List Nat → UniV

/-- `CCurrencyValueMap::CCurrencyValueMap(const UniValue&)` loop body: walk
the object's key/value pairs; a key whose decoded identifier is null, a
duplicate decoded identifier, or an amount whose parse throws clears the
accumulated map and leaves the loop. -/
def fromUniValueLoop (env : Env) : List (String × UniV) → List (Nat × Int) → List (Nat × Int)
  | [], acc => acc
  | (k, v) :: rest, acc =>
    let currencyID := env.decodeDestId k
    if currencyID = 0 then []
    else if acc.any (fun p => p.1 == currencyID) then []
    else
      match env.amountFromValueNoErr v with
      | .error _ => []
      | .ok a => fromUniValueLoop env rest (mapInsert currencyID a acc)

/-- `CCurrencyValueMap::CCurrencyValueMap(const UniValue &uni)`: parses an
interchange object; any non-object input yields the default (empty) map. -/
def CCurrencyValueMap.ofUniValue (env : Env) (uni : UniV) : CCurrencyValueMap :=
  match uni with
  | .vobj kvs => ⟨fromUniValueLoop env kvs []⟩
  | _ => ⟨[]⟩

/-- `CCurrencyValueMap::ToUniValue()`: one member per map entry, in map
order, with the key encoded as an identity address and the value formatted
by `ValueFromAmount`. -/
def CCurrencyValueMap.toUniValue (env : Env) (m : CCurrencyValueMap) : UniV :=
  .vobj (m.valueMap.map (fun p => (env.encodeId p.1, ValueFromAmount p.2)))

/-- `CNodeData::ToUniValue()`. -/
def CNodeData.toUniValue (env : Env) (n : CNodeData) : List (String × UniV) :=
  [("networkaddress", .vstr n.networkAddress),
   ("nodeidentity", .vstr (env.encodeId n.nodeIdentity))]

/-- `CCurrencyState::ToUniValue()`: flags; when valid and in reserve mode a
`reservecurrencies` array with one entry per basket member (weights and
reserves default to zero past the end of their arrays, the price comes from
the external pricing function); then the supply scalars. -/
def CCurrencyState.toUniValue (env : Env) (s : CCurrencyState) : List (String × UniV) :=
  [("flags", .vint s.flags)]
  ++ (if env.currencyStateIsValid s.flags && env.currencyStateIsReserve s.flags then
        [("reservecurrencies", .varr ((List.range s.currencies.length).map (fun i =>
          .vobj [("currencyid", .vstr (env.encodeId (s.currencies.getD i 0))),
                 ("weight", ValueFromAmount (if i < s.weights.length then s.weights.getD i 0 else 0)),
                 ("reserves", ValueFromAmount (if i < s.reserves.length then s.reserves.getD i 0 else 0)),
                 ("priceinreserve", ValueFromAmount (env.priceInReserve s i))])))]
      else [])
  ++ [("initialsupply", ValueFromAmount s.initialSupply),
      ("emitted", ValueFromAmount s.emitted),
      ("supply", ValueFromAmount s.supply)]

/-- `ValueVectorsToUniValue(rowNames, columnNames, vec, columnVectors)`:
two-axis table of amounts; a cell whose index is past the end of its vector
is rendered as zero (`(*(vec[j])).size() > i ? (*(vec[j]))[i] : 0`). -/
def ValueVectorsToUniValue (rowNames columnNames : List String)
    (vec : List (List Int)) (columnVectors : Bool) : UniV :=
  if columnVectors then
    .vobj ((List.range rowNames.length).map (fun i =>
      (rowNames.getD i "", .vobj ((List.range columnNames.length).map (fun j =>
        (columnNames.getD j "",
         ValueFromAmount (if i < (vec.getD j []).length then (vec.getD j []).getD i 0 else 0)))))))
  else
    .vobj ((List.range rowNames.length).map (fun i =>
      (rowNames.getD i "", .vobj ((List.range columnNames.length).map (fun j =>
        (columnNames.getD j "",
         ValueFromAmount (if j < (vec.getD i []).length then (vec.getD i []).getD j 0 else 0)))))))

/-- The six per-block flow vectors of `CCoinbaseCurrencyState::ToUniValue()`,
in column order. -/
def CCoinbaseCurrencyState.flowVectors (s : CCoinbaseCurrencyState) : List (List Int) :=
  [s.reserveIn, s.nativeIn, s.reserveOut, s.conversionPrice, s.fees, s.conversionFees]

/-- `CCoinbaseCurrencyState::ToUniValue()`: the base-state projection, then
the per-block flow table keyed by encoded basket member, then the scalar
fees. -/
def CCoinbaseCurrencyState.toUniValue (env : Env) (s : CCoinbaseCurrencyState) : List (String × UniV) :=
  CCurrencyState.toUniValue env s.toCCurrencyState
  ++ [("currencies",
        ValueVectorsToUniValue (s.currencies.map env.encodeId)
          ["reservein", "nativein", "reserveout", "lastconversionprice", "fees", "conversionfees"]
          s.flowVectors true),
      ("nativefees", .vint s.nativeFees),
      ("nativeconversionfees", .vint s.nativeConversionFees)]

/-- Modelled from the spec: `arith_uint256::ToString` of the external
arithmetic class renders the 256-bit value as a decimal string. -/
def arithToString (n : Nat) : String := toString n

/-- `CPBaaSNotarization::ToUniValue()`.  `work` is
`((UintToArith256(compactPower) << 128) >> 128).ToString()` — the shifts wrap
at 256 bits — and `stake` is `(UintToArith256(compactPower) >> 128).ToString()`. -/
def CPBaaSNotarization.toUniValue (env : Env) (n : CPBaaSNotarization) : List (String × UniV) :=
  [("version", .vint n.nVersion),
   ("chainid", .vstr (env.hex256 n.systemID)),
   ("notaryaddress", .vstr (env.encodeTxDest n.notaryDest)),
   ("notarizationheight", .vint n.notarizationHeight),
   ("mmrroot", .vstr (env.hex256 n.mmrRoot)),
   ("notarizationprehash", .vstr (env.hex256 n.notarizationPreHash)),
   ("work", .vstr (arithToString ((n.compactPower * 2 ^ 128) % 2 ^ 256 / 2 ^ 128))),
   ("stake", .vstr (arithToString (n.compactPower / 2 ^ 128))),
   ("currencystate", .vobj (CCoinbaseCurrencyState.toUniValue env n.currencyState)),
   ("prevnotarization", .vstr (env.hex256 n.prevNotarization)),
   ("prevheight", .vint n.prevHeight),
   ("crossnotarization", .vstr (env.hex256 n.crossNotarization)),
   ("crossheight", .vint n.crossHeight),
   ("nodes", .varr (n.nodes.map (fun nd => .vobj (CNodeData.toUniValue env nd))))]

/-- `CCurrencyDefinition::ToUniValue()`: fixed header fields, then the
optional sections, each emitted only when its backing data is non-empty
(`if (xs.size())` / `if (preAllocationRatio)`), and finally the `eras`
array, which the source pushes unconditionally. -/
def CCurrencyDefinition.toUniValue (env : Env) (d : CCurrencyDefinition) : List (String × UniV) :=
  [("name", .vstr d.name),
   ("version", .vint d.nVersion),
   ("options", .vint d.options),
   ("parent", .vstr (env.encodeId d.parent)),
   ("systemid", .vstr (env.encodeId d.systemID)),
   ("currencyid", .vstr (env.encodeId (env.identityGetID d.name d.parent))),
   ("notarizationprotocol", .vint d.notarizationProtocol),
   ("proofprotocol", .vint d.proofProtocol),
   ("idregistrationprice", .vint d.idRegistrationAmount),
   ("idreferrallevels", .vint d.idReferralLevels)]
  ++ (if d.notaries.isEmpty then []
      else [("notaries", .varr (d.notaries.map (fun n => .vstr (env.encodeId n))))])
  ++ [("minnotariesconfirm", .vint d.minNotariesConfirm),
      ("billingperiod", .vint d.billingPeriod),
      ("notarizationreward", .vint d.notarizationReward),
      ("startblock", .vint d.startBlock),
      ("endblock", .vint d.endBlock)]
  ++ (if d.currencies.isEmpty then []
      else [("currencies", .varr (d.currencies.map (fun c => .vstr (env.encodeId c))))])
  ++ (if d.weights.isEmpty then []
      else [("weights", .varr (d.weights.map ValueFromAmount))])
  ++ (if d.conversions.isEmpty then []
      else [("conversions", .varr (d.conversions.map ValueFromAmount))])
  ++ (if d.minPreconvert.isEmpty then []
      else [("minpreconversion", .varr (d.minPreconvert.map ValueFromAmount))])
  ++ (if d.maxPreconvert.isEmpty then []
      else [("maxpreconversion", .varr (d.maxPreconvert.map ValueFromAmount))])
  ++ (if d.preAllocationRatio == 0 then []
      else [("preallocationratio", ValueFromAmount d.preAllocationRatio)])
  ++ (if d.preAllocation.isEmpty then []
      else [("preallocation", .varr (d.preAllocation.map (fun p =>
        .vobj [((if p.1 = 0 then "blockoneminer" else env.encodeId p.1), ValueFromAmount p.2)])))])
  ++ (if d.contributions.isEmpty then []
      else [("initialcontributions", .varr (d.contributions.map ValueFromAmount))])
  ++ (if d.preconverted.isEmpty then []
      else [("preconversions", .varr (d.preconverted.map ValueFromAmount))])
  ++ [("eras", .varr ((List.range d.rewards.length).map (fun i =>
        .vobj [("reward", .vint (if i < d.rewards.length then d.rewards.getD i 0 else 0)),
               ("decay", .vint (if i < d.rewardsDecay.length then d.rewardsDecay.getD i 0 else 0)),
               ("halving", .vint (if i < d.halving.length then d.halving.getD i 0 else 0)),
               ("eraend", .vint (if i < d.eraEnd.length then d.eraEnd.getD i 0 else 0))])))]

/-- `CTokenOutput::ToUniValue()`: a null currency identifier is printed as
the literal string `"NULL"`. -/
def CTokenOutput.toUniValue (env : Env) (t : CTokenOutput) : List (String × UniV) :=
  [("version", .vint t.nVersion),
   ("currencyid", .vstr (if t.currencyID = 0 then "NULL" else env.encodeId t.currencyID)),
   ("value", ValueFromAmount t.nValue)]

/-- `uint160(destination.destination)`: byte vector interpreted as a
little-endian 160-bit value. -/
def uint160OfBytes (b : List Nat) : Nat :=
  (b.foldr (fun byte acc => byte % 256 + 256 * acc) 0) % 2 ^ 160

/-- The destination-encoding switch of `CReserveTransfer::ToUniValue()`. -/
def CTransferDestination.toStr (env : Env) (d : CTransferDestination) : String :=
  match d.destType with
  | .pkh => env.encodeKeyID (uint160OfBytes d.destination)
  | .sh => env.encodeScriptID (uint160OfBytes d.destination)
  | .id => env.encodeId (uint160OfBytes d.destination)
  | .quantum => env.encodeQuantumID (uint160OfBytes d.destination)
  | .other _ => env.hexStr d.destination

/-- `CReserveTransfer::ToUniValue()`: the token-output base, then exactly one
flag branch — `preallocation`, else `mintedcurrency`, else the four
convert/preconvert/feeoutput/sendback booleans — then fees, destination
currency and destination. -/
def CReserveTransfer.toUniValue (env : Env) (rt : CReserveTransfer) : List (String × UniV) :=
  CTokenOutput.toUniValue env rt.toCTokenOutput
  ++ (if rt.flags.preallocate then [("preallocation", .vbool true)]
      else if rt.flags.mintCurrency then [("mintedcurrency", .vbool true)]
      else [("convert", .vbool rt.flags.convert),
            ("preconvert", .vbool rt.flags.preconvert),
            ("feeoutput", .vbool rt.flags.feeOutput),
            ("sendback", .vbool rt.flags.sendBack)])
  ++ [("fees", ValueFromAmount rt.nFees),
      ("destinationcurrencyid", .vstr (env.encodeId rt.destCurrencyID)),
      ("destination", .vstr (CTransferDestination.toStr env rt.destination))]

/-- `CReserveExchange::ToUniValue()`. -/
def CReserveExchange.toUniValue (env : Env) (rx : CReserveExchange) : List (String × UniV) :=
  CTokenOutput.toUniValue env rx.toCTokenOutput
  ++ [("toreserve", .vbool rx.flags.toReserve),
      ("tonative", .vbool (!rx.flags.toReserve)),
      ("limitorder", .vbool rx.flags.limit)]
  ++ (if rx.flags.limit then [("limitprice", ValueFromAmount rx.nLimit)] else [])
  ++ [("fillorkill", .vbool rx.flags.fillOrKill)]
  ++ (if rx.flags.fillOrKill then [("validbeforeblock", .vint rx.nValidBefore)] else [])
  ++ [("sendoutput", .vbool rx.flags.sendOutput)]

/-- `CCrossChainExport::ToUniValue()`. -/
def CCrossChainExport.toUniValue (env : Env) (x : CCrossChainExport) : List (String × UniV) :=
  [("version", .vint x.nVersion),
   ("systemid", .vstr (env.encodeId x.systemID)),
   ("numinputs", .vint x.numInputs),
   ("totalamounts", CCurrencyValueMap.toUniValue env x.totalAmounts),
   ("totalfees", CCurrencyValueMap.toUniValue env x.totalFees)]

/-- `CCrossChainImport::ToUniValue()`. -/
def CCrossChainImport.toUniValue (env : Env) (x : CCrossChainImport) : List (String × UniV) :=
  [("version", .vint x.nVersion),
   ("systemid", .vstr (env.encodeId x.systemID)),
   ("valuein", CCurrencyValueMap.toUniValue env x.importValue),
   ("tokensout", CCurrencyValueMap.toUniValue env x.totalReserveOutMap)]

/-- `CPrincipal::ToUniValue()`. -/
def CPrincipal.toUniValue (env : Env) (p : CPrincipal) : List (String × UniV) :=
  [("version", .vint p.nVersion),
   ("flags", .vint p.flags),
   ("primaryaddresses", .varr (p.primaryAddresses.map (fun a => .vstr (env.encodeTxDest a)))),
   ("minimumsignatures", .vint p.minSigs)]

/-- `CIdentity::ToUniValue()`. -/
def CIdentity.toUniValue (env : Env) (i : CIdentity) : List (String × UniV) :=
  CPrincipal.toUniValue env i.toCPrincipal
  ++ [("identityaddress", .vstr (env.encodeId (env.identityGetID i.name i.parent))),
      ("parent", .vstr (env.encodeId i.parent)),
      ("name", .vstr i.name),
      ("contentmap", .vobj (i.contentMap.map (fun e => (env.hex256 e.1, .vstr (env.hex256 e.2))))),
      ("revocationauthority", .vstr (env.encodeId i.revocationAuthority)),
      ("recoveryauthority", .vstr (env.encodeId i.recoveryAuthority))]
  ++ (if i.privateAddresses.isEmpty then []
      else [("privateaddress", .vstr (env.encodePaymentAddress (i.privateAddresses.getD 0 0)))])

/-- Modelled from the spec: `CScript::GetOp2` lives in the external script
engine.  Standard script tokenization: an opcode byte below `OP_PUSHDATA1`
pushes that many following bytes; `OP_PUSHDATA1/2/4` read a 1/2/4-byte
little-endian length; a truncated push fails.  Returns
`(opcode, headerBytes, pushData, rest)` where `headerBytes` spans
`[it2, it - vch.size())` and `pushData` spans `[it - vch.size(), it)`. -/
def GetOp2 : List Nat → Option (Nat × List Nat × List Nat × List Nat)
  | [] => none
  | b :: rest =>
    let op := b % 256
    if op < 0x4c then
      if op ≤ rest.length then some (op, [b], rest.take op, rest.drop op) else none
    else if op = 0x4c then
      match rest with
      | n :: r2 => if n ≤ r2.length then some (op, [b, n], r2.take n, r2.drop n) else none
      | [] => none
    else if op = 0x4d then
      match rest with
      | n0 :: n1 :: r2 =>
        let n := n0 + 256 * n1
        if n ≤ r2.length then some (op, [b, n0, n1], r2.take n, r2.drop n) else none
      | _ => none
    else if op = 0x4e then
      match rest with
      | n0 :: n1 :: n2 :: n3 :: r2 =>
        let n := n0 + 256 * n1 + 65536 * n2 + 16777216 * n3
        if n ≤ r2.length then some (op, [b, n0, n1, n2, n3], r2.take n, r2.drop n) else none
      | _ => none
    else some (op, [b], [], rest)

/-- Modelled from the spec: the opcode mnemonic table (`GetOpName`) lives in
the external script engine; entries for the opcodes the claims exercise are
given with the source's `OP_`-prefixed spellings, small integers print bare
("0", "-1", "1".."16"), anything else is the table's unknown sentinel. -/
def GetOpName (op : Nat) : String :=
  if op = 0x00 then "0"
  else if op = 0x4f then "-1"
  else if 0x51 ≤ op ∧ op ≤ 0x60 then toString (op - 0x50)
  else if op = 0x61 then "OP_NOP"
  else if op = 0x63 then "OP_IF"
  else if op = 0x69 then "OP_VERIFY"
  else if op = 0x6a then "OP_RETURN"
  else if op = 0x76 then "OP_DUP"
  else if op = 0x87 then "OP_EQUAL"
  else if op = 0x88 then "OP_EQUALVERIFY"
  else if op = 0x93 then "OP_ADD"
  else if op = 0x94 then "OP_SUB"
  else if op = 0xa9 then "OP_HASH160"
  else if op = 0xac then "OP_CHECKSIG"
  else if op = 0xad then "OP_CHECKSIGVERIFY"
  else if op = 0xae then "OP_CHECKMULTISIG"
  else if op = 0xaf then "OP_CHECKMULTISIGVERIFY"
  else "OP_UNKNOWN"

/-- The `FormatScript` loop.  Fuel is the remaining byte count: every
iteration of the source loop consumes at least one byte, so `bytes.length`
fuel is always sufficient and the zero-fuel case is unreachable. -/
def FormatScriptGo (hex : List Nat → String) : Nat → List Nat → String
  | 0, _ => ""
  | _, [] => ""
  | fuel + 1, bytes =>
    match GetOp2 bytes with
    | none => "0x" ++ hex bytes ++ " "
    | some (op, header, vch, rest) =>
      if op = 0 then "0 " ++ FormatScriptGo hex fuel rest
      else if (0x51 ≤ op ∧ op ≤ 0x60) ∨ op = 0x4f then
        toString ((op : Int) - 0x4f - 1) ++ " " ++ FormatScriptGo hex fuel rest
      else if 0x61 ≤ op ∧ op ≤ 0xaf ∧ (GetOpName op).take 3 = "OP_" then
        (GetOpName op).drop 3 ++ " " ++ FormatScriptGo hex fuel rest
      else if vch.length > 0 then
        "0x" ++ hex header ++ " 0x" ++ hex vch ++ " " ++ FormatScriptGo hex fuel rest
      else
        "0x" ++ hex header ++ FormatScriptGo hex fuel rest

/-- `FormatScript(script)`: token stream with the final character removed
(`ret.substr(0, ret.size() - 1)`). -/
def FormatScript (env : Env) (script : List Nat) : String :=
  (FormatScriptGo env.hexStr script.length script).dropRight 1

/-- Modelled from the spec: `CScriptNum(vch, false)` of the external script
engine reads a little-endian sign-magnitude integer (top bit of the last
byte is the sign). -/
def CScriptNumOfBytes (vch : List Nat) : Int :=
  match vch.getLast? with
  | none => 0
  | some last =>
    let m : Nat := vch.foldr (fun byte acc => byte % 256 + 256 * acc) 0
    if last % 256 ≥ 0x80 then -(Int.ofNat (m - 0x80 * 256 ^ (vch.length - 1)))
    else Int.ofNat m

/-- Modelled from the spec: `CScriptNum::getint()` clamps to the 32-bit
`int` range. -/
def CScriptNumGetInt (v : Int) : Int :=
  if v > 2147483647 then 2147483647
  else if v < -2147483648 then -2147483648
  else v

/-- Modelled from the spec: `CScript::IsUnspendable()` — an `OP_RETURN`
leader or an oversized script (external script engine,
`MAX_SCRIPT_SIZE = 10000`). -/
def IsUnspendable (script : List Nat) : Bool :=
  (script.head? == some 0x6a) || script.length > 10000

/-- `mapSigHashTypes`: the sighash-type mnemonic table.  The `SIGHASH_*`
numeric constants come from the external interpreter header
(`ALL = 1`, `NONE = 2`, `SINGLE = 3`, `ANYONECANPAY = 0x80`). -/
def mapSigHashTypes : List (Nat × String) :=
  [(0x01, "ALL"), (0x81, "ALL|ANYONECANPAY"),
   (0x02, "NONE"), (0x82, "NONE|ANYONECANPAY"),
   (0x03, "SINGLE"), (0x83, "SINGLE|ANYONECANPAY")]

/-- The `ScriptToAsmStr` loop; `orig` is the whole script (used by the
`IsUnspendable` gate), `acc` the string built so far.  Fuel as in
`FormatScriptGo`. -/
def ScriptToAsmStrGo (env : Env) (orig : List Nat) (fAttemptSighashDecode : Bool) :
    Nat → List Nat → String → String
  | 0, _, acc => acc
  | _, [], acc => acc
  | fuel + 1, bytes, acc =>
    let acc := if acc = "" then acc else acc ++ " "
    match GetOp2 bytes with
    | none => acc ++ "[error]"
    | some (op, _, vch, rest) =>
      if op ≤ 0x4e then
        if vch.length ≤ 4 then
          ScriptToAsmStrGo env orig fAttemptSighashDecode fuel rest
            (acc ++ toString (CScriptNumGetInt (CScriptNumOfBytes vch)))
        else if fAttemptSighashDecode && !IsUnspendable orig then
          let decoded :=
            if env.checkSignatureEncoding vch then
              match vch.getLast? with
              | some b =>
                match (mapSigHashTypes.find? (fun p => p.1 = b)).map Prod.snd with
                | some name => env.hexStr vch.dropLast ++ "[" ++ name ++ "]"
                | none => env.hexStr vch
              | none => env.hexStr vch
            else env.hexStr vch
          ScriptToAsmStrGo env orig fAttemptSighashDecode fuel rest (acc ++ decoded)
        else
          ScriptToAsmStrGo env orig fAttemptSighashDecode fuel rest (acc ++ env.hexStr vch)
      else
        ScriptToAsmStrGo env orig fAttemptSighashDecode fuel rest (acc ++ GetOpName op)

/-- `ScriptToAsmStr(script, fAttemptSighashDecode)`. -/
def ScriptToAsmStr (env : Env) (script : List Nat) (fAttemptSighashDecode : Bool) : String :=
  ScriptToAsmStrGo env script fAttemptSighashDecode script.length script ""

/-- Modelled from the spec: `COptCCParams::VERSION_V2`, the minimum payload
version at which typed decoding is attempted (external header). -/
def VERSION_V2 : Nat := 2

/-- The evaluation-code switch of `ScriptPubKeyToUniv` (the typed-payload
dispatch): each known record kind checks `p.vData.size()` and the decoded
record's `IsValid()` and pushes either the record projection or the string
`"invalid"` under the record's key; `EVAL_FINALIZENOTARIZATION` pushes its
projection only when a payload is present (no validity check, nothing at
all otherwise); the identity revoke/recover/commitment/reservation and
stake-guard codes push an empty-string marker unconditionally; any code
outside the table pushes `("unknown", "")`. -/
def evalDispatch (env : Env) (code : EvalCode) (vData : List (List Nat)) : List (String × UniV) :=
  match code with
  | .currencyDefinition =>
    match vData with
    | [] => [("currencydefinition", .vstr "invalid")]
    | d :: _ =>
      if env.currencyDefinitionIsValid (env.decodeCurrencyDefinition d) then
        [("currencydefinition", .vobj (CCurrencyDefinition.toUniValue env (env.decodeCurrencyDefinition d)))]
      else [("currencydefinition", .vstr "invalid")]
  | .serviceReward =>
    match vData with
    | [] => [("pbaasServiceReward", .vstr "invalid")]
    | d :: _ =>
      if env.serviceRewardIsValid d then [("pbaasServiceReward", env.serviceRewardToUni d)]
      else [("pbaasServiceReward", .vstr "invalid")]
  | .earnedNotarization =>
    match vData with
    | [] => [("pbaasNotarization", .vstr "invalid")]
    | d :: _ =>
      if env.notarizationIsValid (env.decodeNotarization d) then
        [("pbaasNotarization", .vobj (CPBaaSNotarization.toUniValue env (env.decodeNotarization d)))]
      else [("pbaasNotarization", .vstr "invalid")]
  | .acceptedNotarization =>
    match vData with
    | [] => [("pbaasNotarization", .vstr "invalid")]
    | d :: _ =>
      if env.notarizationIsValid (env.decodeNotarization d) then
        [("pbaasNotarization", .vobj (CPBaaSNotarization.toUniValue env (env.decodeNotarization d)))]
      else [("pbaasNotarization", .vstr "invalid")]
  | .finalizeNotarization =>
    match vData with
    | [] => []
    | d :: _ => [("pbaasFinalization", env.finalizationToUni d)]
  | .currencyState =>
    match vData with
    | [] => [("currencystate", .vstr "invalid")]
    | d :: _ =>
      if env.coinbaseCurrencyStateIsValid (env.decodeCoinbaseCurrencyState d) then
        [("currencystate", .vobj (CCoinbaseCurrencyState.toUniValue env (env.decodeCoinbaseCurrencyState d)))]
      else [("currencystate", .vstr "invalid")]
  | .reserveTransfer =>
    match vData with
    | [] => [("reservetransfer", .vstr "invalid")]
    | d :: _ =>
      if env.reserveTransferIsValid (env.decodeReserveTransfer d) then
        [("reservetransfer", .vobj (CReserveTransfer.toUniValue env (env.decodeReserveTransfer d)))]
      else [("reservetransfer", .vstr "invalid")]
  | .reserveOutput =>
    match vData with
    | [] => [("reserveoutput", .vstr "invalid")]
    | d :: _ =>
      if env.tokenOutputIsValid (env.decodeTokenOutput d) then
        [("reserveoutput", .vobj (CTokenOutput.toUniValue env (env.decodeTokenOutput d)))]
      else [("reserveoutput", .vstr "invalid")]
  | .reserveExchange =>
    match vData with
    | [] => [("reserveexchange", .vstr "invalid")]
    | d :: _ =>
      if env.reserveExchangeIsValid (env.decodeReserveExchange d) then
        [("reserveexchange", .vobj (CReserveExchange.toUniValue env (env.decodeReserveExchange d)))]
      else [("reserveexchange", .vstr "invalid")]
  | .reserveDeposit =>
    match vData with
    | [] => [("reservedeposit", .vstr "invalid")]
    | d :: _ =>
      if env.tokenOutputIsValid (env.decodeTokenOutput d) then
        [("reservedeposit", .vobj (CTokenOutput.toUniValue env (env.decodeTokenOutput d)))]
      else [("reservedeposit", .vstr "invalid")]
  | .crosschainExport =>
    match vData with
    | [] => [("crosschainexport", .vstr "invalid")]
    | d :: _ =>
      if env.crossChainExportIsValid (env.decodeCrossChainExport d) then
        [("crosschainexport", .vobj (CCrossChainExport.toUniValue env (env.decodeCrossChainExport d)))]
      else [("crosschainexport", .vstr "invalid")]
  | .crosschainImport =>
    match vData with
    | [] => [("crosschainimport", .vstr "invalid")]
    | d :: _ =>
      if env.crossChainImportIsValid (env.decodeCrossChainImport d) then
        [("crosschainimport", .vobj (CCrossChainImport.toUniValue env (env.decodeCrossChainImport d)))]
      else [("crosschainimport", .vstr "invalid")]
  | .identityPrimary =>
    match vData with
    | [] => [("identityprimary", .vstr "invalid")]
    | d :: _ =>
      if env.identityIsValid (env.decodeIdentity d) then
        [("identityprimary", .vobj (CIdentity.toUniValue env (env.decodeIdentity d)))]
      else [("identityprimary", .vstr "invalid")]
  | .identityRevoke => [("identityrevoke", .vstr "")]
  | .identityRecover => [("identityrecover", .vstr "")]
  | .identityCommitment => [("identitycommitment", .vstr "")]
  | .identityReservation => [("identityreservation", .vstr "")]
  | .stakeguard => [("stakeguard", .vstr "")]
  | .identityExport =>
    match vData with
    | [] => [("identityexport", .vstr "invalid")]
    | d :: _ =>
      if env.identityExportIsValid d then [("identityexport", env.identityExportToUni d)]
      else [("identityexport", .vstr "invalid")]
  | .other _ => [("unknown", .vstr "")]

/-- `ScriptPubKeyToUniv(scriptPubKey, out, fIncludeHex, fIncludeAsm)`: the
script's standard type, then — when the script is a pay-to-condition with a
version at or above `VERSION_V2` — the typed-payload dispatch, then the
address summary when any destination was extracted, then the optional `asm`
and `hex` renderings. -/
def ScriptPubKeyToUniv (env : Env) (scriptPubKey : List Nat)
    (fIncludeHex fIncludeAsm : Bool) : List (String × UniV) :=
  let ed := env.extractDestinations scriptPubKey
  [("type", .vstr ed.1)]
  ++ (match env.isPayToCryptoCondition scriptPubKey with
      | some (ver, code, vData) =>
        if VERSION_V2 ≤ ver then evalDispatch env code vData else []
      | none => [])
  ++ (if ed.2.1.isEmpty then []
      else [("reqSigs", .vint ed.2.2),
            ("addresses", .varr (ed.2.1.map (fun a => .vstr (env.encodeTxDest a))))])
  ++ (if fIncludeAsm then [("asm", .vstr (ScriptToAsmStr env scriptPubKey false))] else [])
  ++ (if fIncludeHex then [("hex", .vstr (env.hexStr scriptPubKey))] else [])

/-- A small concrete environment for evaluating the projections on closed
inputs: identifiers are encoded as their decimal text and decoded with
`String.toNat?` (null on parse failure), amounts parse by recognising the
canonical bodies used by the closed instances below, and every record
decoder yields the default record and rejects it as invalid. -/
def defaultEnv : Env where
  decodeDestId := fun s => if s == "1" then 1 else if s == "2" then 2 else 0
  encodeId := fun n => toString n
  encodeTxDest := fun n => toString n
  encodeKeyID := fun n => toString n
  encodeScriptID := fun n => toString n
  encodeQuantumID := fun n => toString n
  encodePaymentAddress := fun n => toString n
  amountFromValueNoErr := fun u =>
    match u with
    | .vnum s => .ok (if s = "0.00000005" then 5 else if s = "0.00000007" then 7 else 0)
    | _ => .error "value is not a number"
  hexStr := fun _ => ""
  hex256 := fun n => toString n
  priceInReserve := fun _ _ => 0
  currencyStateIsValid := fun _ => false
  currencyStateIsReserve := fun _ => false
  identityGetID := fun _ _ => 0
  checkSignatureEncoding := fun _ => false
  extractDestinations := fun _ => ("nonstandard", [], 0)
  isPayToCryptoCondition := fun _ => none
  decodeCurrencyDefinition := fun _ => default
  currencyDefinitionIsValid := fun _ => false
  serviceRewardIsValid := fun _ => false
  serviceRewardToUni := fun _ => .vstr ""
  decodeNotarization := fun _ => default
  notarizationIsValid := fun _ => false
  finalizationToUni := fun _ => .vstr ""
  decodeCoinbaseCurrencyState := fun _ => default
  coinbaseCurrencyStateIsValid := fun _ => false
  decodeReserveTransfer := fun _ => default
  reserveTransferIsValid := fun _ => false
  decodeTokenOutput := fun _ => default
  tokenOutputIsValid := fun _ => false
  decodeReserveExchange := fun _ => default
  reserveExchangeIsValid := fun _ => false
  decodeCrossChainExport := fun _ => default
  crossChainExportIsValid := fun _ => false
  decodeCrossChainImport := fun _ => default
  crossChainImportIsValid := fun _ => false
  decodeIdentity := fun _ => default
  identityIsValid := fun _ => false
  identityExportIsValid := fun _ => false
  identityExportToUni := fun _ => .vstr ""

/-- The record key under which each payload-decoding evaluation code
projects its record (`none` for the marker-only codes, the
finalization code — whose empty-payload behaviour differs — and
unrecognized codes). -/
def EvalCode.decoderKey : EvalCode → Option String
  | .currencyDefinition => some "currencydefinition"
  | .serviceReward => some "pbaasServiceReward"
  | .earnedNotarization => some "pbaasNotarization"
  | .acceptedNotarization => some "pbaasNotarization"
  | .currencyState => some "currencystate"
  | .reserveTransfer => some "reservetransfer"
  | .reserveOutput => some "reserveoutput"
  | .reserveExchange => some "reserveexchange"
  | .reserveDeposit => some "reservedeposit"
  | .crosschainExport => some "crosschainexport"
  | .crosschainImport => some "crosschainimport"
  | .identityPrimary => some "identityprimary"
  | .identityExport => some "identityexport"
  | _ => none

/-- The fixed key under which each marker-only evaluation code (identity
revoke/recover/commitment/reservation and stake guard) pushes its
unconditional empty-string marker. -/
def EvalCode.markerKey : EvalCode → Option String
  | .identityRevoke => some "identityrevoke"
  | .identityRecover => some "identityrecover"
  | .identityCommitment => some "identitycommitment"
  | .identityReservation => some "identityreservation"
  | .stakeguard => some "stakeguard"
  | _ => none

/-- The validity check a payload must pass for its evaluation code's record
type (decode, then the record's `IsValid()`); codes without such a check
accept everything. -/
def evalPayloadValid (env : Env) : EvalCode → List Nat → Bool
  | .currencyDefinition, d => env.currencyDefinitionIsValid (env.decodeCurrencyDefinition d)
  | .serviceReward, d => env.serviceRewardIsValid d
  | .earnedNotarization, d => env.notarizationIsValid (env.decodeNotarization d)
  | .acceptedNotarization, d => env.notarizationIsValid (env.decodeNotarization d)
  | .currencyState, d => env.coinbaseCurrencyStateIsValid (env.decodeCoinbaseCurrencyState d)
  | .reserveTransfer, d => env.reserveTransferIsValid (env.decodeReserveTransfer d)
  | .reserveOutput, d => env.tokenOutputIsValid (env.decodeTokenOutput d)
  | .reserveExchange, d => env.reserveExchangeIsValid (env.decodeReserveExchange d)
  | .reserveDeposit, d => env.tokenOutputIsValid (env.decodeTokenOutput d)
  | .crosschainExport, d => env.crossChainExportIsValid (env.decodeCrossChainExport d)
  | .crosschainImport, d => env.crossChainImportIsValid (env.decodeCrossChainImport d)
  | .identityPrimary, d => env.identityIsValid (env.decodeIdentity d)
  | .identityExport, d => env.identityExportIsValid d
  | _, _ => true

/-- A transfer with only the MINT_CURRENCY flag. -/
def rtMintOnly : CReserveTransfer :=
  { nVersion := 1, currencyID := 1, nValue := 0,
    flags := { preallocate := false, mintCurrency := true, convert := false,
               preconvert := false, feeOutput := false, sendBack := false },
    nFees := 0, destCurrencyID := 1,
    destination := { destType := .pkh, destination := [] } }

/-- A transfer with CONVERT and FEE_OUTPUT set, PREALLOCATE and
MINT_CURRENCY clear. -/
def rtConvertFee : CReserveTransfer :=
  { nVersion := 1, currencyID := 1, nValue := 0,
    flags := { preallocate := false, mintCurrency := false, convert := true,
               preconvert := false, feeOutput := true, sendBack := false },
    nFees := 0, destCurrencyID := 1,
    destination := { destType := .pkh, destination := [] } }

/-- Zero-padding of a natural number to eight digits. -/
def padNat8 (n : Nat) : String :=
  String.mk (List.replicate (8 - (toString n).length) '0') ++ toString n

/-- The amount format exactly as the claim words it: an optional leading
"-" exactly when the amount is negative, then `|a| div 100000000`, a dot,
and `|a| mod 100000000` zero-padded to eight digits. -/
def claimAmountFormat (a : Int) : String :=
  (if a < 0 then "-" else "") ++ toString (a.natAbs / 100000000) ++ "."
    ++ padNat8 (a.natAbs % 100000000)

/-- The cell in row `i`, column `j` of a projected two-axis table. -/
def cellOf (v : UniV) (i j : Nat) : Option UniV :=
  match v with
  | .vobj rows =>
    match rows[i]? with
    | some (_, .vobj cells) => cells[j]?.map Prod.snd
    | _ => none
  | _ => none

/-- A three-member basket whose `reserveIn` array has only two entries. -/
def cbShortState : CCoinbaseCurrencyState :=
  { flags := 0, currencies := [1, 2, 3], weights := [], reserves := [],
    initialSupply := 0, emitted := 0, supply := 0,
    reserveIn := [10, 20], nativeIn := [], reserveOut := [],
    conversionPrice := [], fees := [], conversionFees := [],
    nativeFees := 0, nativeConversionFees := 0 }

/-- A currency definition with an empty rewards array (and empty optional
sections). -/
def cdRewardsEmpty : CCurrencyDefinition :=
  { name := "x", nVersion := 1, options := 0, parent := 0, systemID := 0,
    notarizationProtocol := 0, proofProtocol := 0, idRegistrationAmount := 0,
    idReferralLevels := 0, notaries := [], minNotariesConfirm := 0,
    billingPeriod := 0, notarizationReward := 0, startBlock := 0, endBlock := 0,
    currencies := [], weights := [], conversions := [], minPreconvert := [],
    maxPreconvert := [], preAllocationRatio := 0, preAllocation := [],
    contributions := [], preconverted := [], rewards := [], rewardsDecay := [],
    halving := [], eraEnd := [] }

/-- An environment whose payload extraction reports a version-2 reserve
transfer condition with no payload. -/
def envRtEmpty : Env :=
  { defaultEnv with isPayToCryptoCondition := fun _ => some (2, .reserveTransfer, []) }

/-- An environment whose payload extraction reports a version-2 stake-guard
condition carrying a one-byte payload. -/
def envStakeguard : Env :=
  { defaultEnv with isPayToCryptoCondition := fun _ => some (2, .stakeguard, [[1]]) }

/-- An environment whose payload extraction reports a version-2 notarization
finalization condition with no payload. -/
def envFinEmpty : Env :=
  { defaultEnv with isPayToCryptoCondition := fun _ => some (2, .finalizeNotarization, []) }

/-- C10: for every TokenOutput whose currencyID is the null 160-bit
identifier, the projection's `currencyid` field is the literal string
`"NULL"`; for every non-null currencyID it is the encoded identity
address. -/
theorem c10_token_output_null_currency (env : Env) (t : CTokenOutput) :
    (t.currencyID = 0 →
      lookupKey (CTokenOutput.toUniValue env t) "currencyid" = some (.vstr "NULL"))
  ∧ (t.currencyID ≠ 0 →
      lookupKey (CTokenOutput.toUniValue env t) "currencyid"
        = some (.vstr (env.encodeId t.currencyID))) := by
  constructor <;> intro h <;> simp [CTokenOutput.toUniValue, lookupKey, List.find?, h]

/-- Witness for C10 at a concrete token output with a null identifier. -/
theorem c10_token_output_null_currency_witness :
    lookupKey (CTokenOutput.toUniValue defaultEnv
      { nVersion := 1, currencyID := 0, nValue := 5 }) "currencyid"
      = some (.vstr "NULL") :=
  (c10_token_output_null_currency defaultEnv
    { nVersion := 1, currencyID := 0, nValue := 5 }).1 rfl

/-- C6: the projected `work` value of a notarization record is
`compactPower mod 2^128` and the projected `stake` value is
`compactPower >> 128`, each rendered as a decimal string. -/
theorem c6_notarization_work_stake_split (env : Env) (n : CPBaaSNotarization) :
    lookupKey (CPBaaSNotarization.toUniValue env n) "work"
      = some (.vstr (arithToString (n.compactPower % 2 ^ 128)))
  ∧ lookupKey (CPBaaSNotarization.toUniValue env n) "stake"
      = some (.vstr (arithToString (n.compactPower / 2 ^ 128))) := by
  have key : (n.compactPower * 2 ^ 128) % 2 ^ 256 / 2 ^ 128 = n.compactPower % 2 ^ 128 := by
    have h256 : (2 : Nat) ^ 256 = 2 ^ 128 * 2 ^ 128 := by norm_num
    rw [h256, Nat.mul_mod_mul_right, Nat.mul_div_cancel _ (by positivity)]
  exact ⟨congrArg (fun x => some (UniV.vstr (arithToString x))) key, rfl⟩

/-- C9: disassembling the script `OP_1 OP_2 OP_ADD` via `FormatScript`
yields exactly the token sequence `"1 2 ADD"`. -/
theorem c9_format_script_op1_op2_opadd :
    FormatScript defaultEnv [0x51, 0x52, 0x93] = "1 2 ADD" := by decide

/-- C5: a ReserveTransfer projected with only MINT_CURRENCY set (PREALLOCATE
clear) contains none of the keys `convert`, `preconvert`, `feeoutput`,
`sendback`; projected with CONVERT and FEE_OUTPUT set and neither
PREALLOCATE nor MINT_CURRENCY set it contains all four keys with boolean
values matching the corresponding flag bits. -/
theorem c5_reserve_transfer_flag_branches (env : Env) (rt : CReserveTransfer) :
    (rt.flags.mintCurrency = true → rt.flags.preallocate = false →
      hasKey (CReserveTransfer.toUniValue env rt) "convert" = false
      ∧ hasKey (CReserveTransfer.toUniValue env rt) "preconvert" = false
      ∧ hasKey (CReserveTransfer.toUniValue env rt) "feeoutput" = false
      ∧ hasKey (CReserveTransfer.toUniValue env rt) "sendback" = false)
  ∧ (rt.flags.convert = true → rt.flags.feeOutput = true →
     rt.flags.preallocate = false → rt.flags.mintCurrency = false →
      ("convert", UniV.vbool true) ∈ CReserveTransfer.toUniValue env rt
      ∧ ("preconvert", UniV.vbool rt.flags.preconvert) ∈ CReserveTransfer.toUniValue env rt
      ∧ ("feeoutput", UniV.vbool true) ∈ CReserveTransfer.toUniValue env rt
      ∧ ("sendback", UniV.vbool rt.flags.sendBack) ∈ CReserveTransfer.toUniValue env rt) := by
  constructor
  · intro hm hp
    simp [CReserveTransfer.toUniValue, CTokenOutput.toUniValue, hasKey, hp, hm]
  · intro hc hf hp hm
    simp [CReserveTransfer.toUniValue, CTokenOutput.toUniValue, hp, hm, hc, hf]

/-- Witness for C5 at the two concrete transfers. -/
theorem c5_reserve_transfer_flag_branches_witness :
    (hasKey (CReserveTransfer.toUniValue defaultEnv rtMintOnly) "convert" = false
     ∧ hasKey (CReserveTransfer.toUniValue defaultEnv rtMintOnly) "preconvert" = false
     ∧ hasKey (CReserveTransfer.toUniValue defaultEnv rtMintOnly) "feeoutput" = false
     ∧ hasKey (CReserveTransfer.toUniValue defaultEnv rtMintOnly) "sendback" = false)
  ∧ (("convert", UniV.vbool true) ∈ CReserveTransfer.toUniValue defaultEnv rtConvertFee
     ∧ ("preconvert", UniV.vbool rtConvertFee.flags.preconvert)
         ∈ CReserveTransfer.toUniValue defaultEnv rtConvertFee
     ∧ ("feeoutput", UniV.vbool true) ∈ CReserveTransfer.toUniValue defaultEnv rtConvertFee
     ∧ ("sendback", UniV.vbool rtConvertFee.flags.sendBack)
         ∈ CReserveTransfer.toUniValue defaultEnv rtConvertFee) :=
  ⟨(c5_reserve_transfer_flag_branches defaultEnv rtMintOnly).1 rfl rfl,
   (c5_reserve_transfer_flag_branches defaultEnv rtConvertFee).2 rfl rfl rfl rfl⟩

lemma wrap64_cast (k : Nat) (h : k < 2 ^ 63) : wrap64 ((k : Nat) : Int) = ((k : Nat) : Int) := by
  unfold wrap64
  rw [Int.emod_eq_of_lt (by omega) (by omega)]
  omega

lemma toString_cast (m : Nat) : toString ((m : Nat) : Int) = toString m := rfl

lemma empty_string_append (s : String) : "" ++ s = s := by
  cases s with
  | mk data => rfl

lemma printf08d_cast (k : Nat) : printf08d ((k : Nat) : Int) = padNat8 k := by
  simp only [printf08d, padNat8]
  rw [if_neg (by omega : ¬ (((k : Nat) : Int) < 0))]
  rw [show ((k : Nat) : Int).natAbs = k from rfl]
  rw [show ("" : String).length = 0 from rfl, Nat.zero_add, empty_string_append]

lemma valueFromAmount_in_range (a : Int) (hlo : -(2 ^ 63) < a) (hhi : a < 2 ^ 63) :
    ValueFromAmountStr a = claimAmountFormat a := by
  cases a with
  | ofNat n =>
    simp only [Int.ofNat_eq_natCast] at hhi ⊢
    have hn : n < 2 ^ 63 := by omega
    have hc : ¬ ((n : Int) < 0) := by omega
    simp only [ValueFromAmountStr, claimAmountFormat]
    rw [if_neg hc, if_neg hc, wrap64_cast n hn]
    rw [show Int.tdiv ((n : Nat) : Int) COIN = ((n / 100000000 : Nat) : Int) from rfl]
    rw [show Int.tmod ((n : Nat) : Int) COIN = ((n % 100000000 : Nat) : Int) from rfl]
    rw [show ((n : Nat) : Int).natAbs = n from rfl]
    rw [toString_cast, printf08d_cast]
  | negSucc m =>
    have hne : Int.negSucc m = -((m : Int) + 1) := Int.negSucc_eq m
    have hm : m + 1 < 2 ^ 63 := by
      rw [hne] at hlo
      omega
    have hc : Int.negSucc m < 0 := Int.negSucc_lt_zero m
    simp only [ValueFromAmountStr, claimAmountFormat]
    rw [if_pos hc, if_pos hc]
    rw [show -Int.negSucc m = ((m + 1 : Nat) : Int) from rfl]
    rw [wrap64_cast (m + 1) hm]
    rw [show Int.tdiv ((m + 1 : Nat) : Int) COIN = (((m + 1) / 100000000 : Nat) : Int) from rfl]
    rw [show Int.tmod ((m + 1 : Nat) : Int) COIN = (((m + 1) % 100000000 : Nat) : Int) from rfl]
    rw [show (Int.negSucc m).natAbs = m + 1 from rfl]
    rw [toString_cast, printf08d_cast]

/-- Counterexample to C3: at the one signed 64-bit amount `-2^63`, whose
absolute value is not representable, the negation wraps and the formatter
emits `"--92233720368.-54775808"`, not the claimed
`"-92233720368.54775808"`. -/
theorem c3_amount_format_cex :
    ValueFromAmountStr (-(2 ^ 63)) = "--92233720368.-54775808"
    ∧ claimAmountFormat (-(2 ^ 63)) = "-92233720368.54775808"
    ∧ ValueFromAmountStr (-(2 ^ 63)) ≠ claimAmountFormat (-(2 ^ 63)) := by
  refine ⟨by decide, by decide, by decide⟩

/-- C3 (amended): for every signed 64-bit amount except `-2^63`, the
canonical amount formatter emits an optional leading "-" exactly when the
amount is negative, followed by `|a| div 100000000`, a dot, and
`|a| mod 100000000` zero-padded to eight digits; in particular
`Format(-150000000) = "-1.50000000"`, `Format(0) = "0.00000000"` and
`Format(99999999) = "0.99999999"`. -/
theorem c3_amount_format_amended (a : Int) (hlo : -(2 ^ 63) < a) (hhi : a < 2 ^ 63) :
    ValueFromAmountStr a = claimAmountFormat a
    ∧ ValueFromAmountStr (-150000000) = "-1.50000000"
    ∧ ValueFromAmountStr 0 = "0.00000000"
    ∧ ValueFromAmountStr 99999999 = "0.99999999" :=
  ⟨valueFromAmount_in_range a hlo hhi, by decide, by decide, by decide⟩

/-- Witness for C3 (amended) at `a = -150000000`. -/
theorem c3_amount_format_amended_witness :
    ValueFromAmountStr (-150000000) = claimAmountFormat (-150000000)
    ∧ ValueFromAmountStr (-150000000) = "-1.50000000" :=
  ⟨(c3_amount_format_amended (-150000000) (by decide) (by decide)).1,
   (c3_amount_format_amended (-150000000) (by decide) (by decide)).2.1⟩

lemma valueVectors_cell_default_zero (rowNames colNames : List String)
    (vec : List (List Int)) (i j : Nat)
    (hi : i < rowNames.length) (hj : j < colNames.length)
    (hshort : (vec.getD j []).length ≤ i) :
    cellOf (ValueVectorsToUniValue rowNames colNames vec true) i j
      = some (ValueFromAmount 0) := by
  simp only [ValueVectorsToUniValue, if_true, cellOf]
  rw [List.getElem?_map, List.getElem?_range hi]
  simp only [Option.map_some']
  rw [List.getElem?_map, List.getElem?_range hj]
  simp only [Option.map_some']
  rw [if_neg (by omega)]

lemma currencyState_no_currencies_key (env : Env) (s : CCurrencyState) :
    hasKey (CCurrencyState.toUniValue env s) "currencies" = false := by
  cases h : env.currencyStateIsValid s.flags && env.currencyStateIsReserve s.flags <;>
    simp [CCurrencyState.toUniValue, hasKey, h]

lemma lookupKey_append_of_not_has (l1 l2 : List (String × UniV)) (k : String)
    (h : hasKey l1 k = false) :
    lookupKey (l1 ++ l2) k = lookupKey l2 k := by
  induction l1 with
  | nil => rfl
  | cons p t ih =>
    simp only [hasKey, List.any_cons, Bool.or_eq_false_iff] at h
    simp only [List.cons_append, lookupKey, List.find?, h.1]
    exact ih h.2

/-- C7: in a CoinbaseCurrencyState projection, every flow-table cell whose
row index is past the end of its flow array is reported as the zero amount
(the projection is total: nothing fails). -/
theorem c7_coinbase_flow_short_arrays_zero (env : Env) (s : CCoinbaseCurrencyState)
    (i j : Nat) (hi : i < s.currencies.length) (hj : j < 6)
    (hshort : (s.flowVectors.getD j []).length ≤ i) :
    (lookupKey (CCoinbaseCurrencyState.toUniValue env s) "currencies").bind
      (fun t => cellOf t i j) = some (ValueFromAmount 0) := by
  unfold CCoinbaseCurrencyState.toUniValue
  rw [lookupKey_append_of_not_has _ _ _
        (currencyState_no_currencies_key env s.toCCurrencyState)]
  simp only [lookupKey, List.find?, Option.map_some', Option.some_bind]
  exact valueVectors_cell_default_zero _ _ _ i j (by simpa using hi) (by simpa using hj) hshort

/-- Witness for C7: the third member's `reservein` cell of `cbShortState`
is the zero amount. -/
theorem c7_coinbase_flow_short_arrays_zero_witness :
    (lookupKey (CCoinbaseCurrencyState.toUniValue defaultEnv cbShortState) "currencies").bind
      (fun t => cellOf t 2 0) = some (ValueFromAmount 0) :=
  c7_coinbase_flow_short_arrays_zero defaultEnv cbShortState 2 0
    (by decide) (by decide) (by decide)

lemma hasKey_append (l1 l2 : List (String × UniV)) (k : String) :
    hasKey (l1 ++ l2) k = (hasKey l1 k || hasKey l2 k) := by
  simp [hasKey, List.any_append]

lemma hasKey_ite (c : Prop) [Decidable c] (l1 l2 : List (String × UniV)) (k : String) :
    hasKey (if c then l1 else l2) k = if c then hasKey l1 k else hasKey l2 k := by
  split <;> rfl

lemma hasKey_cons (p : String × UniV) (t : List (String × UniV)) (k : String) :
    hasKey (p :: t) k = (p.1 == k || hasKey t k) := by
  simp [hasKey]

lemma hasKey_nil (k : String) : hasKey [] k = false := rfl

/-- C8 (amended): in a CurrencyDefinition projection the sections notaries,
currencies, weights, conversions, pre-allocation, contributions and
preconversions are present exactly when their data is non-empty, but the
reward-era table is emitted unconditionally: `eras` is always a key, as a
(possibly empty) array, even when the rewards array is empty. -/
theorem c8_currency_definition_optional_sections (env : Env) (d : CCurrencyDefinition) :
    hasKey (CCurrencyDefinition.toUniValue env d) "notaries" = !d.notaries.isEmpty
    ∧ hasKey (CCurrencyDefinition.toUniValue env d) "currencies" = !d.currencies.isEmpty
    ∧ hasKey (CCurrencyDefinition.toUniValue env d) "weights" = !d.weights.isEmpty
    ∧ hasKey (CCurrencyDefinition.toUniValue env d) "conversions" = !d.conversions.isEmpty
    ∧ hasKey (CCurrencyDefinition.toUniValue env d) "preallocation" = !d.preAllocation.isEmpty
    ∧ hasKey (CCurrencyDefinition.toUniValue env d) "initialcontributions" = !d.contributions.isEmpty
    ∧ hasKey (CCurrencyDefinition.toUniValue env d) "preconversions" = !d.preconverted.isEmpty
    ∧ hasKey (CCurrencyDefinition.toUniValue env d) "eras" = true := by
  refine ⟨?_, ?_, ?_, ?_, ?_, ?_, ?_, ?_⟩
  · cases h : d.notaries.isEmpty <;>
      simp [CCurrencyDefinition.toUniValue, hasKey_append, hasKey_ite, hasKey_cons, hasKey_nil, h]
  · cases h : d.currencies.isEmpty <;>
      simp [CCurrencyDefinition.toUniValue, hasKey_append, hasKey_ite, hasKey_cons, hasKey_nil, h]
  · cases h : d.weights.isEmpty <;>
      simp [CCurrencyDefinition.toUniValue, hasKey_append, hasKey_ite, hasKey_cons, hasKey_nil, h]
  · cases h : d.conversions.isEmpty <;>
      simp [CCurrencyDefinition.toUniValue, hasKey_append, hasKey_ite, hasKey_cons, hasKey_nil, h]
  · cases h : d.preAllocation.isEmpty <;>
      simp [CCurrencyDefinition.toUniValue, hasKey_append, hasKey_ite, hasKey_cons, hasKey_nil, h]
  · cases h : d.contributions.isEmpty <;>
      simp [CCurrencyDefinition.toUniValue, hasKey_append, hasKey_ite, hasKey_cons, hasKey_nil, h]
  · cases h : d.preconverted.isEmpty <;>
      simp [CCurrencyDefinition.toUniValue, hasKey_append, hasKey_ite, hasKey_cons, hasKey_nil, h]
  · simp [CCurrencyDefinition.toUniValue, hasKey_append, hasKey_ite, hasKey_cons, hasKey_nil]

/-- Counterexample to C8 as stated: a definition with an empty rewards array
still has an `eras` key (emitted as an empty array), so the reward-era
section is not omitted when empty. -/
theorem c8_currency_definition_eras_cex :
    cdRewardsEmpty.rewards = []
    ∧ hasKey (CCurrencyDefinition.toUniValue defaultEnv cdRewardsEmpty) "eras" = true
    ∧ lookupKey (CCurrencyDefinition.toUniValue defaultEnv cdRewardsEmpty) "eras"
        = some (.varr []) :=
  ⟨rfl, by decide, rfl⟩

lemma dispatch_invalid (env : Env) (code : EvalCode) (vData : List (List Nat)) (k : String)
    (hk : EvalCode.decoderKey code = some k)
    (hbad : vData = [] ∨ ∃ d rest, vData = d :: rest ∧ evalPayloadValid env code d = false) :
    evalDispatch env code vData = [(k, UniV.vstr "invalid")] := by
  rcases hbad with rfl | ⟨d, rest, rfl, hval⟩ <;> cases code <;>
    simp_all [EvalCode.decoderKey, evalDispatch, evalPayloadValid]

/-- C4 (amended): for every pay-to-condition script (version at or above the
decode threshold) whose evaluation code decodes a record payload — that is,
every known code except the finalization code and the five marker-only
codes — a missing/empty payload or a payload failing the record type's
validity check makes the projection emit the string `"invalid"` under that
record's key, and every code outside the known table emits the `"unknown"`
marker; the finalization code with an empty payload emits nothing at all
(no key, no marker); the five marker-only codes emit their fixed
empty-string marker under their own key for every payload, touching none
of it. -/
theorem c4_dispatch_markers_amended (env : Env) (script : List Nat)
    (ver : Nat) (code : EvalCode) (vData : List (List Nat))
    (fIncludeHex fIncludeAsm : Bool)
    (hp : env.isPayToCryptoCondition script = some (ver, code, vData))
    (hv : VERSION_V2 ≤ ver) :
    (∀ k, EvalCode.decoderKey code = some k →
      (vData = [] ∨ ∃ d rest, vData = d :: rest ∧ evalPayloadValid env code d = false) →
      (k, UniV.vstr "invalid") ∈ ScriptPubKeyToUniv env script fIncludeHex fIncludeAsm)
    ∧ (∀ n, code = .other n →
      ("unknown", UniV.vstr "") ∈ ScriptPubKeyToUniv env script fIncludeHex fIncludeAsm)
    ∧ (code = .finalizeNotarization → vData = [] →
      hasKey (ScriptPubKeyToUniv env script fIncludeHex fIncludeAsm) "pbaasFinalization"
        = false)
    ∧ (∀ k, EvalCode.markerKey code = some k →
      (k, UniV.vstr "") ∈ ScriptPubKeyToUniv env script fIncludeHex fIncludeAsm) := by
  refine ⟨?_, ?_, ?_, ?_⟩
  · intro k hk hbad
    have hd := dispatch_invalid env code vData k hk hbad
    simp [ScriptPubKeyToUniv, hp, hv, hd]
  · intro n hcode
    subst hcode
    simp [ScriptPubKeyToUniv, hp, hv, evalDispatch]
  · intro hcode hnil
    subst hcode
    subst hnil
    simp [ScriptPubKeyToUniv, hp, hv, evalDispatch,
          hasKey_append, hasKey_ite, hasKey_cons, hasKey_nil]
  · intro k hk
    cases code <;>
      simp_all [EvalCode.markerKey, ScriptPubKeyToUniv, hp, hv, evalDispatch]

/-- Witness for C4 (amended): a reserve-transfer condition with no payload
projects the `"invalid"` marker under `reservetransfer`, and a stake-guard
condition carrying a payload projects its fixed empty-string marker. -/
theorem c4_dispatch_markers_amended_witness :
    ("reservetransfer", UniV.vstr "invalid") ∈ ScriptPubKeyToUniv envRtEmpty [] false false
    ∧ ("stakeguard", UniV.vstr "") ∈ ScriptPubKeyToUniv envStakeguard [] false false :=
  ⟨(c4_dispatch_markers_amended envRtEmpty [] 2 .reserveTransfer [] false false rfl
      (by decide)).1 "reservetransfer" rfl (Or.inl rfl),
   (c4_dispatch_markers_amended envStakeguard [] 2 .stakeguard [[1]] false false rfl
      (by decide)).2.2.2 "stakeguard" rfl⟩

/-- Counterexample to C4 as stated: a finalization condition with a missing
payload projects no `pbaasFinalization` key and no `"invalid"` marker — the
whole projection is just the script-type field. -/
theorem c4_dispatch_markers_cex :
    ScriptPubKeyToUniv envFinEmpty [] false false = [("type", UniV.vstr "nonstandard")]
    ∧ hasKey (ScriptPubKeyToUniv envFinEmpty [] false false) "pbaasFinalization" = false :=
  ⟨rfl, rfl⟩

lemma mapInsert_keys_mem (x k : Nat) (v : Int) (l : List (Nat × Int))
    (h : x ∈ l.map Prod.fst) : x ∈ (mapInsert k v l).map Prod.fst := by
  induction l with
  | nil => simp at h
  | cons p t ih =>
    simp only [List.map_cons, List.mem_cons] at h
    simp only [mapInsert]
    split
    · simp only [List.map_cons, List.mem_cons]
      rcases h with h | h
      · exact Or.inr (Or.inl h)
      · exact Or.inr (Or.inr h)
    · split
      · rcases h with h | h
        · simp only [List.map_cons, List.mem_cons]
          rename_i hlt heq
          exact Or.inl (h.trans heq.symm)
        · simp [h]
      · rcases h with h | h
        · simp [h]
        · simp only [List.map_cons, List.mem_cons]
          exact Or.inr (ih h)

lemma mapInsert_self_mem (k : Nat) (v : Int) (l : List (Nat × Int)) :
    k ∈ (mapInsert k v l).map Prod.fst := by
  induction l with
  | nil => simp [mapInsert]
  | cons p t ih =>
    simp only [mapInsert]
    split
    · simp
    · split
      · simp
      · simp only [List.map_cons, List.mem_cons]
        exact Or.inr ih

lemma loop_fail_entry (env : Env) (kvs : List (String × UniV)) :
    ∀ acc : List (Nat × Int),
    (∃ p ∈ kvs, env.decodeDestId p.1 = 0 ∨ ∃ e, env.amountFromValueNoErr p.2 = .error e) →
    fromUniValueLoop env kvs acc = [] := by
  induction kvs with
  | nil => intro acc h; simp at h
  | cons q t ih =>
    obtain ⟨k, v⟩ := q
    intro acc h
    obtain ⟨p, hp, hbad⟩ := h
    by_cases h0 : env.decodeDestId k = 0
    · simp [fromUniValueLoop, h0]
    · cases hdup : acc.any (fun p => p.1 == env.decodeDestId k) with
      | true => simp [fromUniValueLoop, h0, hdup]
      | false =>
        cases hamt : env.amountFromValueNoErr v with
        | error e => simp [fromUniValueLoop, h0, hdup, hamt]
        | ok a =>
          have hmem : ∃ p ∈ t,
              env.decodeDestId p.1 = 0 ∨ ∃ e, env.amountFromValueNoErr p.2 = .error e := by
            rcases List.mem_cons.mp hp with heq | hmem
            · subst heq
              rcases hbad with hbad | ⟨e, hbad⟩
              · exact absurd hbad h0
              · rw [hamt] at hbad
                exact absurd hbad (by simp)
            · exact ⟨p, hmem, hbad⟩
          simp only [fromUniValueLoop, if_neg h0, hdup, hamt]
          exact ih _ hmem

lemma loop_key_in_acc (env : Env) (kvs : List (String × UniV)) (k : Nat) :
    ∀ acc : List (Nat × Int), k ∈ acc.map Prod.fst →
    (∃ p ∈ kvs, env.decodeDestId p.1 = k) →
    fromUniValueLoop env kvs acc = [] := by
  induction kvs with
  | nil => intro acc _ h; simp at h
  | cons q t ih =>
    obtain ⟨k0, v⟩ := q
    intro acc hin h
    obtain ⟨p, hp, hdec⟩ := h
    by_cases h0 : env.decodeDestId k0 = 0
    · simp [fromUniValueLoop, h0]
    · cases hdup : acc.any (fun p => p.1 == env.decodeDestId k0) with
      | true => simp [fromUniValueLoop, h0, hdup]
      | false =>
        have hne : env.decodeDestId k0 ≠ k := by
          intro heq
          have : acc.any (fun p => p.1 == env.decodeDestId k0) = true := by
            rw [heq]
            simp only [List.any_eq_true]
            obtain ⟨q, hq, hq1⟩ := List.mem_map.mp hin
            exact ⟨q, hq, by simp [hq1]⟩
          rw [this] at hdup
          exact absurd hdup (by simp)
        cases hamt : env.amountFromValueNoErr v with
        | error e => simp [fromUniValueLoop, h0, hdup, hamt]
        | ok a =>
          have hmem : ∃ p ∈ t, env.decodeDestId p.1 = k := by
            rcases List.mem_cons.mp hp with heq | hmem
            · subst heq
              exact absurd hdec hne
            · exact ⟨p, hmem, hdec⟩
          simp only [fromUniValueLoop, if_neg h0, hdup, hamt]
          exact ih _ (mapInsert_keys_mem k _ _ _ hin) hmem

lemma loop_duplicate_key (env : Env) (kvs : List (String × UniV)) (k : Nat) :
    ∀ acc : List (Nat × Int),
    2 ≤ (kvs.map (fun p => env.decodeDestId p.1)).count k →
    fromUniValueLoop env kvs acc = [] := by
  induction kvs with
  | nil => intro acc h; simp at h
  | cons q t ih =>
    obtain ⟨k0, v⟩ := q
    intro acc hc
    by_cases h0 : env.decodeDestId k0 = 0
    · simp [fromUniValueLoop, h0]
    · cases hdup : acc.any (fun p => p.1 == env.decodeDestId k0) with
      | true => simp [fromUniValueLoop, h0, hdup]
      | false =>
        cases hamt : env.amountFromValueNoErr v with
        | error e => simp [fromUniValueLoop, h0, hdup, hamt]
        | ok a =>
          simp only [fromUniValueLoop, if_neg h0, hdup, hamt]
          by_cases hk0 : env.decodeDestId k0 = k
          · have hone : 0 < (t.map (fun p => env.decodeDestId p.1)).count k := by
              simp only [List.map_cons, List.count_cons, hk0, beq_self_eq_true,
                         if_true] at hc
              omega
            have hmem : ∃ p ∈ t, env.decodeDestId p.1 = k := by
              obtain ⟨q, hq, hq1⟩ := List.mem_map.mp (List.count_pos_iff.mp hone)
              exact ⟨q, hq, hq1⟩
            refine loop_key_in_acc env t k _ ?_ hmem
            rw [← hk0]
            exact mapInsert_self_mem _ _ _
          · have hc' : 2 ≤ (t.map (fun p => env.decodeDestId p.1)).count k := by
              simp only [List.map_cons, List.count_cons] at hc
              simp only [beq_iff_eq] at hc
              rw [if_neg hk0] at hc
              omega
            exact ih _ hc'

/-- C1: currency-value-map parsing is all-or-nothing — if any key fails
identifier decoding, any decodable key occurs twice, or any amount fails to
parse, the resulting map is empty, regardless of how many other entries were
valid. -/
theorem c1_currency_value_map_all_or_nothing (env : Env) (kvs : List (String × UniV))
    (h : (∃ p ∈ kvs, env.decodeDestId p.1 = 0)
       ∨ (∃ k, k ≠ 0 ∧ 2 ≤ (kvs.map (fun p => env.decodeDestId p.1)).count k)
       ∨ (∃ p ∈ kvs, ∃ e, env.amountFromValueNoErr p.2 = .error e)) :
    CCurrencyValueMap.ofUniValue env (.vobj kvs) = ⟨[]⟩ := by
  have hempty : fromUniValueLoop env kvs [] = [] := by
    rcases h with ⟨p, hp, h0⟩ | ⟨k, hk, hc⟩ | ⟨p, hp, he⟩
    · exact loop_fail_entry env kvs [] ⟨p, hp, Or.inl h0⟩
    · exact loop_duplicate_key env kvs k [] hc
    · exact loop_fail_entry env kvs [] ⟨p, hp, Or.inr he⟩
  simp [CCurrencyValueMap.ofUniValue, hempty]

/-- Witness for C1: one undecodable key empties the parsed map. -/
theorem c1_currency_value_map_all_or_nothing_witness :
    CCurrencyValueMap.ofUniValue defaultEnv
      (.vobj [("x", .vnum "0.00000005"), ("1", .vnum "0.00000007")]) = ⟨[]⟩ :=
  c1_currency_value_map_all_or_nothing defaultEnv _
    (Or.inl ⟨("x", .vnum "0.00000005"), by simp, by decide⟩)

lemma mapInsert_append_gt (k : Nat) (v : Int) (l : List (Nat × Int))
    (h : ∀ a ∈ l, a.1 < k) : mapInsert k v l = l ++ [(k, v)] := by
  induction l with
  | nil => rfl
  | cons p t ih =>
    have hp := h p (List.mem_cons_self p t)
    simp only [mapInsert]
    rw [if_neg (by omega), if_neg (by omega)]
    simp only [List.cons_append, List.cons.injEq, true_and]
    exact ih (fun a ha => h a (List.mem_cons_of_mem p ha))

lemma loop_roundtrip (env : Env) (m : List (Nat × Int)) :
    ∀ acc : List (Nat × Int),
    (∀ a ∈ acc, ∀ b ∈ m, a.1 < b.1) →
    List.Pairwise (fun a b => a.1 < b.1) m →
    (∀ p ∈ m, p.1 ≠ 0 ∧ env.decodeDestId (env.encodeId p.1) = p.1) →
    (∀ p ∈ m, env.amountFromValueNoErr (ValueFromAmount p.2) = .ok p.2) →
    fromUniValueLoop env (m.map (fun p => (env.encodeId p.1, ValueFromAmount p.2))) acc
      = acc ++ m := by
  induction m with
  | nil => intro acc _ _ _ _; simp [fromUniValueLoop]
  | cons q t ih =>
    obtain ⟨k, v⟩ := q
    intro acc hacc hsort hkey hamt
    have hk := hkey (k, v) (List.mem_cons_self _ _)
    have hdup : acc.any (fun p => p.1 == k) = false := by
      rw [List.any_eq_false]
      intro p hp
      have := hacc p hp (k, v) (List.mem_cons_self _ _)
      simp only [beq_iff_eq]
      omega
    have hsort' := List.pairwise_cons.mp hsort
    simp only [List.map_cons, fromUniValueLoop, hk.2, hdup,
               hamt (k, v) (List.mem_cons_self _ _), if_neg hk.1]
    rw [mapInsert_append_gt k v acc (fun a ha => hacc a ha (k, v) (List.mem_cons_self _ _))]
    rw [ih (acc ++ [(k, v)])
          (by
            intro a ha b hb
            rcases List.mem_append.mp ha with ha' | ha'
            · exact hacc a ha' b (List.mem_cons_of_mem _ hb)
            · have : a = (k, v) := by simpa using ha'
              subst this
              exact hsort'.1 b hb)
          hsort'.2
          (fun p hp => hkey p (List.mem_cons_of_mem _ hp))
          (fun p hp => hamt p (List.mem_cons_of_mem _ hp))]
    simp

/-- C2: for every valid currency-value map (non-null keys in the map's
strict key order, entries whose encoding the external codec inverts and
whose canonical amount rendering the external amount parser inverts),
parsing the interchange object produced from the map yields the map back
exactly, and the decoded map's keys are unique. -/
theorem c2_currency_value_map_roundtrip (env : Env) (m : CCurrencyValueMap)
    (hsort : List.Pairwise (fun a b => a.1 < b.1) m.valueMap)
    (hkey : ∀ p ∈ m.valueMap, p.1 ≠ 0 ∧ env.decodeDestId (env.encodeId p.1) = p.1)
    (hamt : ∀ p ∈ m.valueMap, env.amountFromValueNoErr (ValueFromAmount p.2) = .ok p.2) :
    CCurrencyValueMap.ofUniValue env (CCurrencyValueMap.toUniValue env m) = m
    ∧ List.Pairwise (fun a b => a.1 ≠ b.1)
        (CCurrencyValueMap.ofUniValue env (CCurrencyValueMap.toUniValue env m)).valueMap := by
  obtain ⟨l⟩ := m
  have h := loop_roundtrip env l [] (by simp) hsort hkey hamt
  simp only [List.nil_append] at h
  have heq : CCurrencyValueMap.ofUniValue env
      (CCurrencyValueMap.toUniValue env ⟨l⟩) = ⟨l⟩ := by
    simp [CCurrencyValueMap.ofUniValue, CCurrencyValueMap.toUniValue, h]
  refine ⟨heq, ?_⟩
  rw [heq]
  exact hsort.imp (fun hab => Nat.ne_of_lt hab)

/-- Witness for C2 at the two-entry map `{1 ↦ 5, 2 ↦ 7}`. -/
theorem c2_currency_value_map_roundtrip_witness :
    CCurrencyValueMap.ofUniValue defaultEnv
      (CCurrencyValueMap.toUniValue defaultEnv ⟨[(1, 5), (2, 7)]⟩) = ⟨[(1, 5), (2, 7)]⟩ :=
  (c2_currency_value_map_roundtrip defaultEnv ⟨[(1, 5), (2, 7)]⟩
    (by simp)
    (by
      intro p hp
      rcases List.mem_cons.mp hp with h | h
      · subst h; exact ⟨by decide, by decide⟩
      · have : p = (2, 7) := by simpa using h
        subst this
        exact ⟨by decide, by decide⟩)
    (by
      intro p hp
      rcases List.mem_cons.mp hp with h | h
      · subst h; rfl
      · have : p = (2, 7) := by simpa using h
        subst this
        rfl)).1
